import Mathlib

/-!
Verification of the chunked-streaming speed-test engine.

The development shallowly embeds the three transport bindings of the
repository's download/upload test engine:

* the Express HTTP streaming endpoint and the `ws` WebSocket handlers
  (file `src/unnamed/part_000`: `app.get('/api/download')` with `sendChunk`,
  `handleDownloadTest` with `sendNextChunk`, `handlePingTest`,
  `handleUploadTest`),
* the Durable Object binding (`src/functions/websocket.ts`, class
  `WebSocketState`: `handleDownloadTest` with `sendChunk`,
  `handleUploadStart`, `handleUploadData`, `handlePing`),
* the Pages Functions binding (`src/functions/websocket.ts`,
  `onRequestGET`: the `download_start` loop `sendNext`, `upload_data`,
  `ping`),
* the Azure Functions ping handler (`src/unnamed/part_001`).

Modelling conventions, stated once:

* JavaScript numbers used as byte counters are modelled as `Nat` (the loops
  only ever add non-negative chunk sizes); the clamp expression, which is
  meaningful on negative requests, is additionally modelled over `Int`
  (`safeSizeI`).
* The JS falsy-default idiom `x || d` on a numeric field is `jsOr`
  (`0` and an absent/unparsable value both fall back to the default).
* Timestamp fields carried inside emitted frames (`timestamp: Date.now()`)
  and the formatted string fields derived from already-carried numbers
  (`progress: (...).toFixed(1)`, `duration: (...).toFixed(3)`) are omitted
  from the event model: the claims under verification quantify over the
  numeric payload fields, and the formatted strings are functions of them.
* Event traces of the callback-driven loops are produced by structurally
  recursive functions with a fuel argument; the top-level wrappers pass
  fuel `safeSize + 1`, which is sufficient because every iteration either
  terminates or advances `bytesSent` by at least one byte (chunk sizes are
  at least 1 after defaulting).
* The trace models describe error-free executions: the `err` branch of the
  `ws.send` callback is modelled separately where a claim is about it.
* Floating-point division in the throughput computation is modelled over
  `ℚ` together with the IEEE special values, `JsNum`: division by zero
  yields `inf`/`negInf`/`nan` exactly as JS `x / 0` does.
-/

/-- One mebibyte, the progress-reporting granularity (`1024 * 1024`). -/
def MiB : Nat := 1024 * 1024

/-- Maximum download size: `100 * 1024 * 1024` (`Math.min(size, 100 * 1024 * 1024)`). -/
def maxDownloadSize : Nat := 100 * 1024 * 1024

/-- Default requested size: `1024 * 1024` (`data.size || 1024 * 1024`). -/
def defaultDownloadSize : Nat := 1024 * 1024

/-- Default chunk size: `64 * 1024` (`data.chunkSize || 64 * 1024`). -/
def defaultChunkSize : Nat := 64 * 1024

/-- The JS falsy-default idiom `x || d` for a numeric request field, over
`Nat`: the field being `0` (or absent / `NaN` after `parseInt`, which we
represent as `0`) selects the default. -/
def jsOr (x d : Nat) : Nat := if x = 0 then d else x

/-- `const safeSize = Math.min(size, 100 * 1024 * 1024)` applied to the
already-defaulted size, over `Nat`. -/
def safeSize (size : Nat) : Nat := min size maxDownloadSize

/-- The same size computation over `Int`, where the absence of a lower
clamp is visible: `Math.min(data.size || 1024*1024, 100*1024*1024)`. -/
def safeSizeI (size : Int) : Int :=
  min (if size = 0 then (1048576 : Int) else size) 104857600

/-- Events observable on the wire during one download run, across the three
bindings.  `started`, `progress`, `complete` are the JSON control frames
`download_started`, `download_progress`, `download_complete`; `chunkSent`
is a binary payload write of the given length; `progressData` is the
Durable Object binding's `download_progress` frame, which carries the
chunk payload itself (`data: Array.from(chunk)`) alongside
`bytesTransferred` and `totalBytes`. -/
inductive Event
  | started (totalBytes : Nat)
  | chunkSent (size : Nat)
  | progress (bytesSent totalBytes : Nat)
  | progressData (bytesTransferred totalBytes dataLen : Nat)
  | complete (bytesSent : Nat)
  deriving DecidableEq

/-- The `sendNextChunk` loop of `handleDownloadTest` in `src/unnamed/part_000`
(the `ws` WebSocket binding).  One iteration per invocation: if
`bytesSent >= safeSize`, emit `download_complete` (reporting
`bytesSent: safeSize`); otherwise write one binary chunk of
`min(chunkSize, remainingBytes)` bytes and, in its completion callback,
emit `download_progress` when `bytesSent % (1024*1024) === 0` or
`bytesSent === safeSize`, and re-invoke via `process.nextTick` only when
`bytesSent < safeSize`. -/
def sendNextChunkLoop (ss cs bytesSent fuel : Nat) : List Event :=
  match fuel with
  | 0 => []
  | f + 1 =>
    if ss ≤ bytesSent then
      [Event.complete ss]
    else
      let cur := min cs (ss - bytesSent)
      let b := bytesSent + cur
      Event.chunkSent cur ::
        ((if b % MiB = 0 ∨ b = ss then [Event.progress b ss] else []) ++
         (if b < ss then sendNextChunkLoop ss cs b f else []))

/-- The `sendNext` loop of the `download_start` case in `onRequestGET`
(`src/functions/websocket.ts`).  Identical chunking and progress cadence to
`sendNextChunkLoop`, but the next iteration is scheduled unconditionally
(`setTimeout(sendNext, 0)`), so the `bytesTransferred >= safeSize` branch is
reached and `download_complete` (reporting `bytesSent: safeSize`) is
emitted. -/
def sendNextLoop (ss cs bytesTransferred fuel : Nat) : List Event :=
  match fuel with
  | 0 => []
  | f + 1 =>
    if ss ≤ bytesTransferred then
      [Event.complete ss]
    else
      let cur := min cs (ss - bytesTransferred)
      let b := bytesTransferred + cur
      Event.chunkSent cur ::
        ((if b % MiB = 0 ∨ b = ss then [Event.progress b ss] else []) ++
         sendNextLoop ss cs b f)

/-- The `sendChunk` loop of `WebSocketState.handleDownloadTest`
(`src/functions/websocket.ts`, Durable Object binding).  Every chunk is
delivered inside a `download_progress` JSON frame carrying
`bytesTransferred: bytesSent + currentChunkSize`, `totalBytes: safeSize`
and the payload array; the next iteration is scheduled unconditionally
(`setTimeout(sendChunk, 1)`); completion emits `download_complete` with
`totalBytes: bytesSent`. -/
def doSendChunkLoop (ss cs bytesSent fuel : Nat) : List Event :=
  match fuel with
  | 0 => []
  | f + 1 =>
    if ss ≤ bytesSent then
      [Event.complete bytesSent]
    else
      let cur := min cs (ss - bytesSent)
      Event.progressData (bytesSent + cur) ss cur ::
        doSendChunkLoop ss cs (bytesSent + cur) f

/-- `handleDownloadTest` of `src/unnamed/part_000`: default the request
fields, clamp the size, emit `download_started` with the clamped
`totalBytes`, then run `sendNextChunk` from `bytesSent = 0`. -/
def handleDownloadTestWS (size chunkSize : Nat) : List Event :=
  let cs := jsOr chunkSize defaultChunkSize
  let ss := safeSize (jsOr size defaultDownloadSize)
  Event.started ss :: sendNextChunkLoop ss cs 0 (ss + 1)

/-- The `download_start` case of `onRequestGET`
(`src/functions/websocket.ts`): same defaulting and clamping, then the
`sendNext` loop from `bytesTransferred = 0`. -/
def handleDownloadTestGET (size chunkSize : Nat) : List Event :=
  let cs := jsOr chunkSize defaultChunkSize
  let ss := safeSize (jsOr size defaultDownloadSize)
  Event.started ss :: sendNextLoop ss cs 0 (ss + 1)

/-- `WebSocketState.handleDownloadTest` (`src/functions/websocket.ts`,
Durable Object binding): same defaulting and clamping, then the `sendChunk`
loop from `bytesSent = 0`. -/
def handleDownloadTestDO (size chunkSize : Nat) : List Event :=
  let cs := jsOr chunkSize defaultChunkSize
  let ss := safeSize (jsOr size defaultDownloadSize)
  Event.started ss :: doSendChunkLoop ss cs 0 (ss + 1)

/-- A JavaScript number resulting from a division: either a finite value
(modelled exactly over `ℚ`) or one of the IEEE special values that JS
division by zero produces. -/
inductive JsNum
  | fin (q : ℚ)
  | inf
  | negInf
  | nan
  deriving DecidableEq

/-- JS division `a / b`: for `b = 0` it yields `NaN` when `a = 0`,
`Infinity` when `a > 0`, `-Infinity` when `a < 0`; otherwise the finite
quotient. -/
def jsDiv (a b : ℚ) : JsNum :=
  if b = 0 then
    if a = 0 then JsNum.nan else if 0 < a then JsNum.inf else JsNum.negInf
  else JsNum.fin (a / b)

/-- `const duration = (endTime - clientInfo.testStartTime) / 1000`
(`sendNextChunk`, `src/unnamed/part_000`) and
`(Date.now() - sessionInfo.testStartTime) / 1000` (`sendNext`,
`src/functions/websocket.ts`). -/
def durationSeconds (startTs endTs : ℚ) : ℚ := (endTs - startTs) / 1000

/-- `const throughputMBps = (safeSize / (1024 * 1024)) / duration` — the
completion branch of both `sendNextChunk` and `sendNext`.  There is no
branch on the sign of `duration`: the division is performed
unconditionally. -/
def throughputMBps (totalBytes startTs endTs : ℚ) : JsNum :=
  jsDiv (totalBytes / (1024 * 1024)) (durationSeconds startTs endTs)

/-- Session phase: `testPhase` is `null`, `'download'` or `'upload'`. -/
inductive Phase
  | idle
  | download
  | upload
  deriving DecidableEq

/-- Per-connection session state of the Durable Object binding
(`sessionInfo` in `WebSocketState.fetch`): `testPhase`, `bytesTransferred`,
`testStartTime` (absent until a test starts), `lastActivity`.  The opaque
`id`/`connectedAt` fields play no role in any claim and are omitted. -/
structure Session where
  phase : Phase
  bytesTransferred : Nat
  testStartTime : Option Nat
  lastActivity : Nat
  deriving DecidableEq

/-- Parsed control frames of the Durable Object binding
(`WebSocketState.handleMessage`).  `uploadData dataLen` models
`upload_data` with `chunkSize = data.data ? data.data.length : 0` already
extracted (an array length, hence a `Nat`, `0` when the field is absent);
`unknown` is any other `type`. -/
inductive DOMsg
  | ping (timestamp : Option Int)
  | downloadStart (size chunkSize : Nat)
  | uploadStart
  | uploadData (dataLen : Nat)
  | testComplete
  | unknown
  deriving DecidableEq

/-- One scheduling unit acting on a Durable Object session: either the
synchronous part of `handleMessage` for one frame, or one invocation of a
scheduled `sendChunk` tick of a download run.  Each `download_start` spawns
its own `sendChunk` closure over its own `safeSize`/`chunkSize`/`bytesSent`
variables; a tick action carries those three closure values as they stand
when the timer fires (`closureBytes` is the firing closure's `bytesSent`,
determined by that run's own chunk history, not by the session counter —
several runs' uncancelled timers can be in flight at once, cf. C6). -/
inductive DOAction
  | message (m : DOMsg)
  | downloadTick (ss cs closureBytes : Nat)
  deriving DecidableEq

/-- Effect of one `DOAction` on the session state, translated from
`WebSocketState.handleMessage` (which first sets
`sessionInfo.lastActivity = Date.now()`), `handleDownloadTest` /
`handleUploadStart` (which set the phase, reset `bytesTransferred` to 0 and
set `testStartTime = Date.now()`), `handleUploadData`
(`bytesTransferred += chunkSize`), the `test_complete` case (ack only, no
state change), and one `sendChunk` iteration, which on its chunk branch
runs `bytesSent += currentChunkSize; sessionInfo.bytesTransferred =
bytesSent` — an assignment of the firing closure's own counter, not an
increment of the session counter — and on its completion branch
(`bytesSent >= safeSize`) writes nothing. -/
def stepDO (now : Nat) (a : DOAction) (s : Session) : Session :=
  match a with
  | DOAction.message m =>
    let s := { s with lastActivity := now }
    match m with
    | DOMsg.ping _ => s
    | DOMsg.downloadStart _ _ =>
        { s with phase := Phase.download, bytesTransferred := 0,
                 testStartTime := some now }
    | DOMsg.uploadStart =>
        { s with phase := Phase.upload, bytesTransferred := 0,
                 testStartTime := some now }
    | DOMsg.uploadData n =>
        { s with bytesTransferred := s.bytesTransferred + n }
    | DOMsg.testComplete => s
    | DOMsg.unknown => s
  | DOAction.downloadTick ss cs closureBytes =>
    if ss ≤ closureBytes then s
    else { s with bytesTransferred :=
            closureBytes + min cs (ss - closureBytes) }

/-- A `DOAction` that enters a test phase, i.e. one of the two message
kinds whose handlers reset the byte counter. -/
def entersTest : DOAction → Bool
  | DOAction.message (DOMsg.downloadStart _ _) => true
  | DOAction.message DOMsg.uploadStart => true
  | _ => false

/-- One invocation of the Durable Object `sendChunk` closure
(`WebSocketState.handleDownloadTest`): returns the frames it sends, the new
`bytesSent`, and whether it schedules another invocation
(`setTimeout(sendChunk, 1)` — called unconditionally on the chunk branch,
and not at all on the completion branch). -/
def doSendChunkStep (ss cs bytesSent : Nat) : List Event × Nat × Bool :=
  if ss ≤ bytesSent then ([Event.complete bytesSent], bytesSent, false)
  else
    let cur := min cs (ss - bytesSent)
    ([Event.progressData (bytesSent + cur) ss cur], bytesSent + cur, true)

/-- Connection-side state of a Durable Object download run: whether
`this.sessions` still holds the socket, the loop's `bytesSent`, and whether
a `setTimeout(sendChunk, 1)` is outstanding. -/
structure DOConn where
  inSessions : Bool
  bytesSent : Nat
  pendingTick : Bool
  deriving DecidableEq

/-- The `close` (and `error`) listener registered in `WebSocketState.fetch`:
it runs `this.sessions.delete(server)` and nothing else — in particular it
does not clear the outstanding `setTimeout`, which is not even reachable
from the handler. -/
def doClose (c : DOConn) : DOConn := { c with inSessions := false }

/-- The reactor firing the outstanding `sendChunk` timer, if any.  The
`sendChunk` body (`doSendChunkStep`) reads only its closure variables; it
does not consult `this.sessions` or any connectivity state, so the firing
is insensitive to `inSessions`. -/
def doFireTick (ss cs : Nat) (c : DOConn) : List Event × DOConn :=
  if c.pendingTick then
    let r := doSendChunkStep ss cs c.bytesSent
    (r.1, { c with bytesSent := r.2.1, pendingTick := r.2.2 })
  else ([], c)

/-- One invocation of `sendChunk` in `app.get('/api/download')`
(`src/unnamed/part_000`, HTTP streaming binding).  `writeOk` is the value
returned by `res.write(chunk)` (`false` signals backpressure); the code
discards it.  Returns the writes issued, the new `bytesSent`, and the
number of resumptions scheduled (`setImmediate(sendChunk)` — exactly one on
the chunk branch, none after `res.end()`). -/
def httpSendChunkStep (ss cs bytesSent : Nat) (_writeOk : Bool) :
    List Event × Nat × Nat :=
  if ss ≤ bytesSent then ([], bytesSent, 0)
  else
    let cur := min cs (ss - bytesSent)
    ([Event.chunkSent cur], bytesSent + cur, 1)

/-- The synchronous part of one `sendNextChunk` invocation
(`src/unnamed/part_000`, WebSocket binding): it either emits the completion
frame or issues exactly one `ws.send(chunk, ..., callback)` and returns;
the second component counts resumptions scheduled synchronously — always
zero, the continuation lives solely in the write-completion callback. -/
def wsSendChunkInvoke (ss cs bytesSent : Nat) : List Event × Nat :=
  if ss ≤ bytesSent then ([Event.complete ss], 0)
  else ([Event.chunkSent (min cs (ss - bytesSent))], 0)

/-- The write-completion callback of `sendNextChunk`: on error it returns
without scheduling anything; on success it advances `bytesSent`, emits the
progress frame at the per-MiB cadence, and schedules at most one resumption
(`process.nextTick(sendNextChunk)`, only while `bytesSent < safeSize`).
Returns (frames sent, new `bytesSent`, resumptions scheduled). -/
def wsSendChunkOnAck (ss cs bytesSent : Nat) (err : Bool) :
    List Event × Nat × Nat :=
  if err then ([], bytesSent, 0)
  else
    let cur := min cs (ss - bytesSent)
    let b := bytesSent + cur
    ((if b % MiB = 0 ∨ b = ss then [Event.progress b ss] else []), b,
     if b < ss then 1 else 0)

/-- `clientTimestamp` as computed by every ping handler:
`data.timestamp || Date.now()` (`handlePingTest` in `src/unnamed/part_000`,
`handlePing` and the `ping` case of `onRequestGET` in
`src/functions/websocket.ts`) and `parseInt(req.query.timestamp) ||
Date.now()` (`src/unnamed/part_001` and `app.get('/api/ping')`).  `none`
models an absent or unparsable field; a present `0` is falsy and also
selects the server's own time. -/
def pingClientTimestamp (tsField : Option Int) (now : Int) : Int :=
  match tsField with
  | none => now
  | some t => if t = 0 then now else t

/-- `serverProcessingTime = serverTimestamp - clientTimestamp`, where
`serverTimestamp` is the handler's `Date.now()`. -/
def serverProcessingTime (tsField : Option Int) (now : Int) : Int :=
  now - pingClientTimestamp tsField now

/-- Response frames of the `onRequestGET` binding that matter to the upload
path: `upload_ack` carries `bytesReceived: data.byteLength` and
`totalBytesReceived: sessionInfo.bytesTransferred`; `errorFrame` is the
`type: 'error'` frame sent from the message listener's catch block. -/
inductive Frame
  | uploadAck (bytesReceived totalBytesReceived : Int)
  | errorFrame
  deriving DecidableEq

/-- The `upload_data` case of `onRequestGET` (`src/functions/websocket.ts`):
`if (typeof data.byteLength === 'number') { bytesTransferred += byteLength;
send upload_ack }` — and nothing at all otherwise (the `break` is reached
with no send and no state change, and the catch block is not involved
because the frame parsed).  `byteLength` is `none` when the field is absent
or not a number.  Returns the new `bytesTransferred` and the frames sent. -/
def handleUploadDataGET (byteLength : Option Int) (bytesTransferred : Int) :
    Int × List Frame :=
  match byteLength with
  | some n => (bytesTransferred + n,
               [Frame.uploadAck n (bytesTransferred + n)])
  | none => (bytesTransferred, [])

example : jsOr 0 7 = 7 := rfl
example : jsOr 5 7 = 5 := rfl
example : handleDownloadTestWS 65536 65536 =
    [Event.started 65536, Event.chunkSent 65536, Event.progress 65536 65536] := rfl
example : handleDownloadTestGET 131072 65536 =
    [Event.started 131072, Event.chunkSent 65536, Event.chunkSent 65536,
     Event.progress 131072 131072, Event.complete 131072] := rfl
example : handleDownloadTestDO 131072 65536 =
    [Event.started 131072, Event.progressData 65536 131072 65536,
     Event.progressData 131072 131072 65536, Event.complete 131072] := rfl

/-! ## Helper lemmas -/

/-- Every `download_progress` frame emitted by the `sendNext` loop carries a
`bytesSent` that is an exact multiple of 1 MiB or equals the clamped total. -/
theorem sendNextLoop_progress_boundary :
    ∀ fuel ss cs b n m, Event.progress n m ∈ sendNextLoop ss cs b fuel →
      n % MiB = 0 ∨ n = ss := by
  intro fuel
  induction fuel with
  | zero =>
    intro ss cs b n m h
    simp [sendNextLoop] at h
  | succ f ih =>
    intro ss cs b n m h
    simp only [sendNextLoop] at h
    split at h
    · simp at h
    · rcases List.mem_cons.mp h with h | h
      · simp at h
      · rcases List.mem_append.mp h with h | h
        · by_cases hcond :
              (b + min cs (ss - b)) % MiB = 0 ∨ b + min cs (ss - b) = ss
          · rw [if_pos hcond] at h
            simp only [List.mem_singleton, Event.progress.injEq] at h
            obtain ⟨rfl, rfl⟩ := h
            exact hcond
          · rw [if_neg hcond] at h
            simp at h
        · exact ih ss cs _ n m h

/-- Every binary chunk written by the `sendNext` loop is at most the
(unclamped) chunk size: each write is `min(chunkSize, remaining)` bytes. -/
theorem sendNextLoop_chunk_le :
    ∀ fuel ss cs b n, Event.chunkSent n ∈ sendNextLoop ss cs b fuel →
      n ≤ cs := by
  intro fuel
  induction fuel with
  | zero =>
    intro ss cs b n h
    simp [sendNextLoop] at h
  | succ f ih =>
    intro ss cs b n h
    simp only [sendNextLoop] at h
    split at h
    · simp at h
    · rcases List.mem_cons.mp h with h | h
      · simp only [Event.chunkSent.injEq] at h
        subst h
        exact min_le_left _ _
      · rcases List.mem_append.mp h with h | h
        · split at h <;> simp at h
        · exact ih ss cs _ n h

/-- Every `download_progress` frame emitted by the `sendNextChunk` loop
carries a `bytesSent` that is an exact multiple of 1 MiB or equals the
clamped total (same cadence test as `sendNextLoop`; only the recursion
guard differs). -/
theorem sendNextChunkLoop_progress_boundary :
    ∀ fuel ss cs b n m, Event.progress n m ∈ sendNextChunkLoop ss cs b fuel →
      n % MiB = 0 ∨ n = ss := by
  intro fuel
  induction fuel with
  | zero =>
    intro ss cs b n m h
    simp [sendNextChunkLoop] at h
  | succ f ih =>
    intro ss cs b n m h
    simp only [sendNextChunkLoop] at h
    split at h
    · simp at h
    · rcases List.mem_cons.mp h with h | h
      · simp at h
      · rcases List.mem_append.mp h with h | h
        · by_cases hcond :
              (b + min cs (ss - b)) % MiB = 0 ∨ b + min cs (ss - b) = ss
          · rw [if_pos hcond] at h
            simp only [List.mem_singleton, Event.progress.injEq] at h
            obtain ⟨rfl, rfl⟩ := h
            exact hcond
          · rw [if_neg hcond] at h
            simp at h
        · split at h
          · exact ih ss cs _ n m h
          · simp at h

/-- Converse cadence direction for the `sendNext` loop: the `(k+1)`-th
chunk acknowledgment exists whenever the first `k` chunks did not exhaust
the total (`b + k·cs < ss`), brings the counter to
`min (b + (k+1)·cs) ss`, and emits a progress event there whenever that
value is an exact multiple of 1 MiB or equals the total. -/
theorem sendNextLoop_progress_at_boundary :
    ∀ k ss cs b fuel, k < fuel → b + k * cs < ss →
      (min (b + (k + 1) * cs) ss % MiB = 0 ∨ min (b + (k + 1) * cs) ss = ss) →
      Event.progress (min (b + (k + 1) * cs) ss) ss ∈ sendNextLoop ss cs b fuel := by
  intro k
  induction k with
  | zero =>
    intro ss cs b fuel hf hb hcond
    cases fuel with
    | zero => omega
    | succ f =>
      have hb' : ¬ ss ≤ b := by omega
      have hstep : b + min cs (ss - b) = min (b + (0 + 1) * cs) ss := by omega
      simp only [sendNextLoop]
      rw [if_neg hb', hstep]
      exact List.mem_cons_of_mem _ (List.mem_append_left _
        (by rw [if_pos hcond]; exact List.mem_singleton.mpr rfl))
  | succ k ih =>
    intro ss cs b fuel hf hb hcond
    cases fuel with
    | zero => omega
    | succ f =>
      have hmul : (k + 1) * cs = k * cs + cs := Nat.succ_mul k cs
      have hmul2 : (k + 1 + 1) * cs = (k + 1) * cs + cs := Nat.succ_mul (k + 1) cs
      have hb' : ¬ ss ≤ b := by omega
      have hcur : min cs (ss - b) = cs := by omega
      have hEq : b + cs + (k + 1) * cs = b + (k + 1 + 1) * cs := by omega
      have hcond2 : min (b + cs + (k + 1) * cs) ss % MiB = 0 ∨
          min (b + cs + (k + 1) * cs) ss = ss := by rw [hEq]; exact hcond
      have hmem := ih ss cs (b + cs) f (by omega) (by omega) hcond2
      rw [hEq] at hmem
      simp only [sendNextLoop]
      rw [if_neg hb', hcur]
      exact List.mem_cons_of_mem _ (List.mem_append_right _ hmem)

/-- Converse cadence direction for the `sendNextChunk` loop: identical to
`sendNextLoop_progress_at_boundary` — the guarded recursion makes no
difference because a further chunk acknowledgment presupposes
`bytesSent < safeSize`. -/
theorem sendNextChunkLoop_progress_at_boundary :
    ∀ k ss cs b fuel, k < fuel → b + k * cs < ss →
      (min (b + (k + 1) * cs) ss % MiB = 0 ∨ min (b + (k + 1) * cs) ss = ss) →
      Event.progress (min (b + (k + 1) * cs) ss) ss ∈
        sendNextChunkLoop ss cs b fuel := by
  intro k
  induction k with
  | zero =>
    intro ss cs b fuel hf hb hcond
    cases fuel with
    | zero => omega
    | succ f =>
      have hb' : ¬ ss ≤ b := by omega
      have hstep : b + min cs (ss - b) = min (b + (0 + 1) * cs) ss := by omega
      simp only [sendNextChunkLoop]
      rw [if_neg hb', hstep]
      exact List.mem_cons_of_mem _ (List.mem_append_left _
        (by rw [if_pos hcond]; exact List.mem_singleton.mpr rfl))
  | succ k ih =>
    intro ss cs b fuel hf hb hcond
    cases fuel with
    | zero => omega
    | succ f =>
      have hmul : (k + 1) * cs = k * cs + cs := Nat.succ_mul k cs
      have hmul2 : (k + 1 + 1) * cs = (k + 1) * cs + cs := Nat.succ_mul (k + 1) cs
      have hb' : ¬ ss ≤ b := by omega
      have hcur : min cs (ss - b) = cs := by omega
      have hlt : b + cs < ss := by omega
      have hEq : b + cs + (k + 1) * cs = b + (k + 1 + 1) * cs := by omega
      have hcond2 : min (b + cs + (k + 1) * cs) ss % MiB = 0 ∨
          min (b + cs + (k + 1) * cs) ss = ss := by rw [hEq]; exact hcond
      have hmem := ih ss cs (b + cs) f (by omega) (by omega) hcond2
      rw [hEq] at hmem
      simp only [sendNextChunkLoop]
      rw [if_neg hb', hcur, if_pos hlt]
      exact List.mem_cons_of_mem _ (List.mem_append_right _ hmem)

/-! ## Claims -/

/-- C1: evaluation of the `part_000` WebSocket download at size 65536,
chunkSize 65536.  The run emits `download_started`, one binary chunk and
the final `download_progress` — and then stops: the completion callback
re-invokes `sendNextChunk` only while `bytesSent < safeSize`, so the
`download_complete` branch (which would report `bytesSent = totalBytes`)
is never reached for any positive size, and every size is positive after
the `|| 1MB` defaulting.  The claimed complete event therefore never
occurs in this binding. -/
theorem c1_ws_no_complete_event :
    handleDownloadTestWS 65536 65536 =
      [Event.started 65536, Event.chunkSent 65536,
       Event.progress 65536 65536] := by rfl

/-- C2 counterexample, refuting the claimed cadence twice over.  First,
the Durable Object binding emits a `download_progress` frame once per
chunk — here at `bytesTransferred = 65536`, which is neither a multiple of
1 MiB nor equal to the total 131072.  Second, even in the `sendNext`
binding the implemented test is `bytesSent % (1024*1024) === 0`, not
boundary crossing: with size 2097152 and chunkSize 700000 the counter runs
700000 → 1400000 → 2097152, crossing the 1048576 boundary at the second
acknowledgment (700000 < 1048576 < 1400000), yet the full trace contains
no progress event at 1400000 — the only progress event is at the total. -/
theorem c2_do_progress_every_chunk :
    (Event.progressData 65536 131072 65536 ∈ handleDownloadTestDO 131072 65536 ∧
     ¬((65536 : Nat) % MiB = 0 ∨ (65536 : Nat) = 131072)) ∧
    (handleDownloadTestGET 2097152 700000 =
       [Event.started 2097152, Event.chunkSent 700000, Event.chunkSent 700000,
        Event.chunkSent 697152, Event.progress 2097152 2097152,
        Event.complete 2097152] ∧
     700000 < 1048576 ∧ 1048576 < 1400000) := by
  refine ⟨⟨?_, by decide⟩, by rfl, by decide, by decide⟩
  have h : handleDownloadTestDO 131072 65536 =
      [Event.started 131072, Event.progressData 65536 131072 65536,
       Event.progressData 131072 131072 65536, Event.complete 131072] := by rfl
  rw [h]
  simp

/-- C2 amended: in the `part_000` WebSocket binding and the `sendNext`
binding, each acknowledged chunk emits a progress event exactly when the
new cumulative `bytesSent` is an exact multiple of 1 MiB or equals the
clamped total — never once per chunk, and a boundary crossed without being
landed on exactly gets no event (first two conjuncts: every progress event
satisfies the test; next two: every chunk acknowledgment satisfying the
test emits one, the `(k+1)`-th acknowledgment standing at cumulative
`min (b + (k+1)·cs) ss`).  The scenario size=2097152, chunkSize=1048576
yields in the `sendNext` binding exactly two progress events at bytesSent
1048576 and 2097152 followed by one complete event reporting 2097152
bytes, and in the `part_000` binding the same two progress events with no
complete event (per C1). -/
theorem c2_progress_cadence_and_scenario :
    (∀ fuel ss cs b n m, Event.progress n m ∈ sendNextLoop ss cs b fuel →
       n % MiB = 0 ∨ n = ss) ∧
    (∀ fuel ss cs b n m, Event.progress n m ∈ sendNextChunkLoop ss cs b fuel →
       n % MiB = 0 ∨ n = ss) ∧
    (∀ k ss cs b fuel, k < fuel → b + k * cs < ss →
       (min (b + (k + 1) * cs) ss % MiB = 0 ∨ min (b + (k + 1) * cs) ss = ss) →
       Event.progress (min (b + (k + 1) * cs) ss) ss ∈
         sendNextLoop ss cs b fuel) ∧
    (∀ k ss cs b fuel, k < fuel → b + k * cs < ss →
       (min (b + (k + 1) * cs) ss % MiB = 0 ∨ min (b + (k + 1) * cs) ss = ss) →
       Event.progress (min (b + (k + 1) * cs) ss) ss ∈
         sendNextChunkLoop ss cs b fuel) ∧
    handleDownloadTestGET 2097152 1048576 =
      [Event.started 2097152, Event.chunkSent 1048576,
       Event.progress 1048576 2097152, Event.chunkSent 1048576,
       Event.progress 2097152 2097152, Event.complete 2097152] ∧
    handleDownloadTestWS 2097152 1048576 =
      [Event.started 2097152, Event.chunkSent 1048576,
       Event.progress 1048576 2097152, Event.chunkSent 1048576,
       Event.progress 2097152 2097152] :=
  ⟨sendNextLoop_progress_boundary, sendNextChunkLoop_progress_boundary,
   sendNextLoop_progress_at_boundary, sendNextChunkLoop_progress_at_boundary,
   by rfl, by rfl⟩

/-- C2 witness: the only-when conjunct applied to the progress event at
bytesSent 1048576 of a concrete small-fuel run, and the converse conjunct
applied to the first chunk acknowledgment of the same run (its hypotheses
discharged by `decide`). -/
theorem c2_progress_cadence_witness :
    ((1048576 : Nat) % MiB = 0 ∨ (1048576 : Nat) = 2097152) ∧
    Event.progress (min (0 + (0 + 1) * 1048576) 2097152) 2097152 ∈
      sendNextLoop 2097152 1048576 0 3 :=
  ⟨c2_progress_cadence_and_scenario.1 3 2097152 1048576 0 1048576 2097152
     (by decide),
   c2_progress_cadence_and_scenario.2.2.1 0 2097152 1048576 0 3
     (by decide) (by decide) (by decide)⟩

/-- C3 counterexample: at equal timestamps (elapsed time 0) the throughput
computation performs the division anyway and yields `Infinity` — there is
no sentinel branch — refuting "for elapsedSeconds ≤ 0 it returns an
explicit sentinel value, never Infinity, NaN, or a division-by-zero
exception". -/
theorem c3_zero_duration_infinity :
    throughputMBps 1048576 5 5 = JsNum.inf := by
  norm_num [throughputMBps, jsDiv, durationSeconds]

/-- C3 amended: the throughput computation is a pure function of
`totalBytes` and the two timestamps that divides unconditionally: for
positive elapsed time it returns the finite quotient
`totalBytes / (1024*1024) / elapsedSeconds`; for zero elapsed time it
returns `Infinity` (or `NaN` when `totalBytes` is also 0); for negative
elapsed time it returns the (negative) finite quotient.  No sentinel is
ever produced. -/
theorem c3_division_no_sentinel (tb s e : ℚ) :
    (0 < durationSeconds s e →
      throughputMBps tb s e =
        JsNum.fin (tb / (1024 * 1024) / durationSeconds s e)) ∧
    (durationSeconds s e = 0 → 0 < tb → throughputMBps tb s e = JsNum.inf) ∧
    (durationSeconds s e = 0 → tb = 0 → throughputMBps tb s e = JsNum.nan) ∧
    (durationSeconds s e < 0 →
      throughputMBps tb s e =
        JsNum.fin (tb / (1024 * 1024) / durationSeconds s e)) := by
  refine ⟨fun hd => ?_, fun hd htb => ?_, fun hd htb => ?_, fun hd => ?_⟩
  · rw [throughputMBps, jsDiv, if_neg (ne_of_gt hd)]
  · have ha : 0 < tb / (1024 * 1024) := by positivity
    rw [throughputMBps, jsDiv, if_pos hd, if_neg (ne_of_gt ha), if_pos ha]
  · rw [throughputMBps, jsDiv, if_pos hd, if_pos (by rw [htb]; norm_num)]
  · rw [throughputMBps, jsDiv, if_neg (ne_of_lt hd)]

/-- C3 witness: the positive-elapsed conjunct at totalBytes 1048576,
timestamps 0 and 1000 (elapsed 1 second). -/
theorem c3_division_witness :
    throughputMBps 1048576 0 1000 =
      JsNum.fin (1048576 / (1024 * 1024) / durationSeconds 0 1000) :=
  (c3_division_no_sentinel 1048576 0 1000).1
    (by norm_num [durationSeconds])

/-- C4 counterexample: the chunk size is not clamped — a request with
chunkSize 2097152 (2 MiB) and size 4194304 makes the `sendNext` binding
write a 2097152-byte chunk, larger than the claimed 1 MiB bound. -/
theorem c4_oversized_chunk :
    Event.chunkSent 2097152 ∈ handleDownloadTestGET 4194304 2097152 ∧
    1048576 < 2097152 := by
  refine ⟨?_, by decide⟩
  have h : handleDownloadTestGET 4194304 2097152 =
      [Event.started 4194304, Event.chunkSent 2097152,
       Event.progress 2097152 4194304, Event.chunkSent 2097152,
       Event.progress 4194304 4194304, Event.complete 4194304] := by rfl
  rw [h]
  simp

/-- C4 amended: the requested total size is only clamped from above to
100 MiB (`Math.min`); there is no lower clamp, so a negative requested
size (e.g. −5) passes through unchanged rather than behaving as 0; and the
requested chunk size is not clamped at all — each written chunk is
`min(chunkSize, remaining)` bytes, bounded only by the requested chunk
size, which may exceed 1 MiB (a 2097152-byte chunk is written for
chunkSize 2097152). -/
theorem c4_clamp_upper_only :
    (∀ s : Int, safeSizeI s ≤ 104857600) ∧
    safeSizeI (-5) = -5 ∧
    (∀ fuel ss cs b n, Event.chunkSent n ∈ sendNextLoop ss cs b fuel →
       n ≤ cs) ∧
    Event.chunkSent 2097152 ∈ handleDownloadTestGET 4194304 2097152 := by
  refine ⟨fun s => min_le_right _ _, by decide, sendNextLoop_chunk_le, ?_⟩
  have h : handleDownloadTestGET 4194304 2097152 =
      [Event.started 4194304, Event.chunkSent 2097152,
       Event.progress 2097152 4194304, Event.chunkSent 2097152,
       Event.progress 4194304 4194304, Event.complete 4194304] := by rfl
  rw [h]
  simp

/-- C4 witness: the chunk-bound conjunct applied to the 2 MiB chunk of a
concrete small-fuel run. -/
theorem c4_clamp_witness : (2097152 : Nat) ≤ 2097152 :=
  c4_clamp_upper_only.2.2.1 2 4194304 2097152 0 2097152 (by decide)

/-- C5 counterexample: a request with size 0 is falsy-defaulted
(`data.size || 1024*1024`), so the run is a full 1 MiB download: it emits
a progress event at bytesSent 1048576 and never a complete event with
totalBytes 0 — refuting "immediate started then complete with
totalBytes=0, and zero progress events". -/
theorem c5_size_zero_defaults :
    Event.progress 1048576 1048576 ∈ handleDownloadTestGET 0 0 ∧
    Event.complete 0 ∉ handleDownloadTestGET 0 0 := by decide

/-- C5 amended: requested size 0 selects the default 1 MiB (and requested
chunkSize 0 the default 64 KiB): the run emits `started` with totalBytes
1048576, sixteen 64 KiB chunks, one progress event at 1048576, and a
complete event reporting 1048576 bytes — not totalBytes 0. -/
theorem c5_size_zero_full_run :
    handleDownloadTestGET 0 0 =
      [Event.started 1048576,
       Event.chunkSent 65536, Event.chunkSent 65536, Event.chunkSent 65536,
       Event.chunkSent 65536, Event.chunkSent 65536, Event.chunkSent 65536,
       Event.chunkSent 65536, Event.chunkSent 65536, Event.chunkSent 65536,
       Event.chunkSent 65536, Event.chunkSent 65536, Event.chunkSent 65536,
       Event.chunkSent 65536, Event.chunkSent 65536, Event.chunkSent 65536,
       Event.chunkSent 65536, Event.progress 1048576 1048576,
       Event.complete 1048576] := by rfl

/-- C6: in the Durable Object binding, disconnection does not cancel the
scheduled chunk-send step.  Concretely: after a 65536-byte run's last chunk
was sent (bytesSent 65536) with one `setTimeout(sendChunk, 1)` outstanding,
the close handler only removes the session from `this.sessions`
(`pendingTick` stays `true`), and when the timer fires, the step executes
and emits a `download_complete` frame for the destroyed session — the
`sendChunk` closure never consults the session map or any connectivity
state. -/
theorem c6_tick_fires_after_close :
    (doClose ⟨true, 65536, true⟩).pendingTick = true ∧
    (doFireTick 65536 65536 (doClose ⟨true, 65536, true⟩)).1 =
      [Event.complete 65536] := ⟨rfl, rfl⟩

/-- C7: one scheduling unit never performs more than one write and never
schedules more than one resumption, so a backpressured write is never
retried in the same unit and no binding busy-loops.  For the HTTP binding,
a `sendChunk` invocation whose `res.write` returned `false` (backpressure)
still issues exactly that one write and schedules exactly one resumption
(`setImmediate`) before returning.  For the `part_000` WebSocket binding,
a `sendNextChunk` invocation issues exactly one write and schedules
nothing synchronously — resumption arrives only through the
write-completion callback — and each completion callback schedules at most
one resumption. -/
theorem c7_single_write_single_resumption (ss cs b : Nat) (hb : b < ss) :
    ((httpSendChunkStep ss cs b false).1.length = 1 ∧
     (httpSendChunkStep ss cs b false).2.2 = 1) ∧
    ((wsSendChunkInvoke ss cs b).1.length = 1 ∧
     (wsSendChunkInvoke ss cs b).2 = 0) ∧
    (∀ err, (wsSendChunkOnAck ss cs b err).2.2 ≤ 1) := by
  have hb' : ¬ ss ≤ b := Nat.not_le.mpr hb
  refine ⟨⟨?_, ?_⟩, ⟨?_, ?_⟩, fun err => ?_⟩
  · simp [httpSendChunkStep, hb']
  · simp [httpSendChunkStep, hb']
  · simp [wsSendChunkInvoke, hb']
  · simp [wsSendChunkInvoke, hb']
  · cases err with
    | false =>
      simp only [wsSendChunkOnAck]
      split
      · exact Nat.zero_le 1
      · split <;> split <;> simp
    | true =>
      simp only [wsSendChunkOnAck]
      split
      · exact Nat.zero_le 1
      · split <;> split <;> simp

/-- C7 witness: the theorem at ss 65536, cs 65536, b 0. -/
theorem c7_backpressure_witness :
    ((httpSendChunkStep 65536 65536 0 false).1.length = 1 ∧
     (httpSendChunkStep 65536 65536 0 false).2.2 = 1) ∧
    ((wsSendChunkInvoke 65536 65536 0).1.length = 1 ∧
     (wsSendChunkInvoke 65536 65536 0).2 = 0) ∧
    (∀ err, (wsSendChunkOnAck 65536 65536 0 err).2.2 ≤ 1) :=
  c7_single_write_single_resumption 65536 65536 0 (by decide)

/-- C8 counterexample: `bytesTransferred` is not monotone within a
non-idle phase, because a superseded run's uncancelled ticks (cf. C6)
interleave with the current run's and each tick assigns its own closure's
counter.  The message/tick sequence: `download_start(300000, 100000)`, two
ticks of that run (its closure `bytesSent` grows 0 → 100000 → 200000),
then `download_start(300000, 50000)` (reset to 0), the new run's first
tick (closure 0, writes 50000), the old run's third tick (closure 200000,
writes 300000), then the new run's second tick (closure 50000, writes
100000).  Between the last two steps — neither of which enters a test, and
with the phase `download` throughout — the session counter drops from
300000 to 100000, refuting the claimed monotonicity. -/
theorem c8_stale_tick_decreases :
    (List.foldl (fun s a => stepDO 50 a s)
        (⟨Phase.idle, 0, none, 0⟩ : Session)
        [DOAction.message (DOMsg.downloadStart 300000 100000),
         DOAction.downloadTick 300000 100000 0,
         DOAction.downloadTick 300000 100000 100000,
         DOAction.message (DOMsg.downloadStart 300000 50000),
         DOAction.downloadTick 300000 50000 0,
         DOAction.downloadTick 300000 100000 200000]).bytesTransferred
      = 300000 ∧
    (List.foldl (fun s a => stepDO 50 a s)
        (⟨Phase.idle, 0, none, 0⟩ : Session)
        [DOAction.message (DOMsg.downloadStart 300000 100000),
         DOAction.downloadTick 300000 100000 0,
         DOAction.downloadTick 300000 100000 100000,
         DOAction.message (DOMsg.downloadStart 300000 50000),
         DOAction.downloadTick 300000 50000 0,
         DOAction.downloadTick 300000 100000 200000,
         DOAction.downloadTick 300000 50000 50000]).bytesTransferred
      = 100000 ∧
    (List.foldl (fun s a => stepDO 50 a s)
        (⟨Phase.idle, 0, none, 0⟩ : Session)
        [DOAction.message (DOMsg.downloadStart 300000 100000),
         DOAction.downloadTick 300000 100000 0,
         DOAction.downloadTick 300000 100000 100000,
         DOAction.message (DOMsg.downloadStart 300000 50000),
         DOAction.downloadTick 300000 50000 0,
         DOAction.downloadTick 300000 100000 200000,
         DOAction.downloadTick 300000 50000 50000]).phase = Phase.download ∧
    entersTest (DOAction.downloadTick 300000 50000 50000) = false ∧
    (100000 : Nat) < 300000 := by decide

/-- C8 amended: handling `download_start` or `upload_start` resets the
session's `bytesTransferred` to 0, sets `testStartTime` to the current
time and enters the corresponding phase; every non-entering message step
leaves `bytesTransferred` non-decreasing, and so does every chunk tick
whose closure counter agrees with the session counter — which is the case
whenever the only in-flight run is the current one, since only that run's
ticks have written the session counter since the reset.  (With a stale
run's uncancelled ticks interleaved the counter can decrease, per the
counterexample.) -/
theorem c8_reset_and_monotone (now : Nat) (s : Session) :
    (∀ size cs,
      (stepDO now (DOAction.message (DOMsg.downloadStart size cs)) s).bytesTransferred = 0 ∧
      (stepDO now (DOAction.message (DOMsg.downloadStart size cs)) s).testStartTime = some now ∧
      (stepDO now (DOAction.message (DOMsg.downloadStart size cs)) s).phase = Phase.download) ∧
    ((stepDO now (DOAction.message DOMsg.uploadStart) s).bytesTransferred = 0 ∧
     (stepDO now (DOAction.message DOMsg.uploadStart) s).testStartTime = some now ∧
     (stepDO now (DOAction.message DOMsg.uploadStart) s).phase = Phase.upload) ∧
    (∀ m, entersTest (DOAction.message m) = false →
      s.bytesTransferred ≤
        (stepDO now (DOAction.message m) s).bytesTransferred) ∧
    (∀ ss cs, s.bytesTransferred ≤
      (stepDO now (DOAction.downloadTick ss cs s.bytesTransferred) s).bytesTransferred) := by
  refine ⟨fun size cs => ⟨rfl, rfl, rfl⟩, ⟨rfl, rfl, rfl⟩, ?_, ?_⟩
  · intro m ha
    cases m with
    | ping t => exact Nat.le_refl _
    | downloadStart size cs => simp [entersTest] at ha
    | uploadStart => simp [entersTest] at ha
    | uploadData n => exact Nat.le_add_right _ _
    | testComplete => exact Nat.le_refl _
    | unknown => exact Nat.le_refl _
  · intro ss cs
    simp only [stepDO]
    split
    · exact Nat.le_refl _
    · exact Nat.le_add_right _ _

/-- C8 witness: on a session with counter 3, a ping message (the
non-entering hypothesis discharged by `rfl`) and an in-sync chunk tick
both leave the counter non-decreasing. -/
theorem c8_monotone_witness :
    ((⟨Phase.download, 3, some 0, 0⟩ : Session).bytesTransferred ≤
      (stepDO 10 (DOAction.message (DOMsg.ping none))
        ⟨Phase.download, 3, some 0, 0⟩).bytesTransferred) ∧
    ((⟨Phase.download, 3, some 0, 0⟩ : Session).bytesTransferred ≤
      (stepDO 10 (DOAction.downloadTick 10 4 3)
        ⟨Phase.download, 3, some 0, 0⟩).bytesTransferred) :=
  ⟨(c8_reset_and_monotone 10 ⟨Phase.download, 3, some 0, 0⟩).2.2.1
     (DOMsg.ping none) rfl,
   (c8_reset_and_monotone 10 ⟨Phase.download, 3, some 0, 0⟩).2.2.2 10 4⟩

/-- C9 counterexample: a ping carrying clientTimestamp 0 at server time 5
gets `serverProcessingTime = 0`, not `serverTimestamp − T = 5`: the
`data.timestamp || Date.now()` defaulting treats the supplied 0 as absent,
refuting the claim for T = 0. -/
theorem c9_zero_timestamp_fallback :
    serverProcessingTime (some 0) 5 = 0 ∧
    serverProcessingTime (some 0) 5 ≠ 5 - 0 := by decide

/-- C9 amended: for every ping carrying a nonzero clientTimestamp T the
response has `serverProcessingTime = serverTimestamp − T` (negative values
possible under clock skew); when the timestamp is absent — or zero, which
the `||` defaulting cannot distinguish from absent — the server's own
current time is used, making `serverProcessingTime` 0. -/
theorem c9_ping_nonzero_timestamp (t now : Int) :
    (t ≠ 0 → serverProcessingTime (some t) now = now - t) ∧
    serverProcessingTime none now = 0 ∧
    serverProcessingTime (some 0) now = 0 := by
  refine ⟨fun ht => ?_, ?_, ?_⟩ <;>
    simp [serverProcessingTime, pingClientTimestamp, *]

/-- C9 witness: the nonzero-timestamp conjunct at T 100, server time 5
(a negative result, as clock skew permits). -/
theorem c9_ping_witness : serverProcessingTime (some 100) 5 = 5 - 100 :=
  (c9_ping_nonzero_timestamp 100 5).1 (by decide)

/-- C10: in the `onRequestGET` binding, an `upload_data` control frame
whose `byteLength` is absent or not a number (the `typeof` guard fails)
produces no response frame at all — neither `upload_ack` nor an `error`
frame — and leaves `bytesTransferred` unchanged. -/
theorem c10_upload_data_missing_byteLength (b : Int) :
    handleUploadDataGET none b = (b, []) := rfl
